import Mathlib

/-!
# Verification of the CXL region-binding / HDM-decoder core

Shallow embedding of the CXL region driver RFC sources:
* drivers/cxl/cxl.h          — interleave math helpers
* drivers/cxl/region.c       — sanitize / XHB / HB-RP validators, staging
* drivers/cxl/core/hdm.c     — decoder enumeration, commit protocol
* region.h (part_000)        — cxl_is_interleave_ways_valid and friends
* core region sysfs (part_003) — interleave ways / granularity setters

Machine integers are modelled as Nat (unsigned) and Int (signed C int) with
explicit two's-complement wrapping where the C arithmetic can overflow.  The
kernel is built with -fno-strict-overflow, so signed overflow wraps at 32
bits.  A C division / modulo by zero is modelled as Option.none (undefined
behaviour).
-/

set_option maxRecDepth 100000

/-! ## C integer helpers -/

/-- Two's-complement wrap of a mathematical integer into a 32-bit signed int
(the kernel builds with -fno-strict-overflow, so int overflow wraps). -/
def wrap32 (x : Int) : Int :=
  (x + 2 ^ 31) % 2 ^ 32 - 2 ^ 31

/-- C conversion of a signed value to u8 (value mod 2^8). -/
def u8_of_int (x : Int) : Nat :=
  (x % 2 ^ 8).toNat

/-- C conversion of a signed value to u16 (value mod 2^16). -/
def u16_of_int (x : Int) : Nat :=
  (x % 2 ^ 16).toNat

/-- C conversion of a signed value to u64 (value mod 2^64, i.e. negative
ints are sign-extended). -/
def u64_of_int (x : Int) : Nat :=
  (x % 2 ^ 64).toNat

/-- C multiplication of two ints (32-bit, wrapping). -/
def c_int_mul (a b : Int) : Int :=
  wrap32 (a * b)

/-- `include/linux/log2.h` `is_power_of_2(n)`: `n != 0 && ((n & (n - 1)) == 0)`. -/
def is_power_of_2 (n : Nat) : Bool :=
  n ≠ 0 && (n &&& (n - 1)) == 0

/-- Fuel-driven floor-log2 so the kernel can evaluate it (`Nat.log2` is
well-founded recursion, which `decide` cannot reduce). -/
def ilog2_fuel : Nat → Nat → Nat
  | 0, _ => 0
  | fuel + 1, n => if 2 ≤ n then ilog2_fuel fuel (n / 2) + 1 else 0

/-- Kernel `ilog2` (floor of log2; `ilog2(0)` is undefined in C and never
reached on the domains used below). -/
def ilog2 (n : Nat) : Nat :=
  ilog2_fuel n n

/-! ## Error numbers (include/uapi/asm-generic/errno-base.h, errno.h) -/

def ENXIO : Int := 6
def ENOMEM : Int := 12
def EBUSY : Int := 16
def EEXIST : Int := 17
def ENODEV : Int := 19
def EINVAL : Int := 22
def EILSEQ : Int := 84
def ETIMEDOUT : Int := 110

/-! ## Interleave math (drivers/cxl/cxl.h lines 67-95) -/

/-- `cxl.h:67` `cxl_to_interleave_granularity(u16 ig) = 256 << ig`
(C int shift; on the hardware field domain ig ≤ 15 this is exact). -/
def cxl_to_interleave_granularity (ig : Nat) : Int :=
  wrap32 (256 * 2 ^ ig)

/-- `cxl.h:72` `cxl_to_interleave_ways(u8 eniw)`:
`case 0 ... 4: return 1 << eniw; case 8 ... 10: return 3 << (eniw - 8);
default: return 0;`. -/
def cxl_to_interleave_ways (eniw : Nat) : Nat :=
  if eniw ≤ 4 then 1 <<< eniw
  else if 8 ≤ eniw ∧ eniw ≤ 10 then 3 <<< (eniw - 8)
  else 0

/-- `cxl.h:84` `cxl_from_ways(u8 ways)`:
`if (is_power_of_2(ways)) return ilog2(ways); return ways / 3 + 8;`. -/
def cxl_from_ways (ways : Nat) : Int :=
  if is_power_of_2 ways then (ilog2 ways : Int) else (ways / 3 + 8 : Nat)

/-- `cxl.h:92` `cxl_from_granularity(u16 g) = ilog2(g) - 8`. -/
def cxl_from_granularity (g : Nat) : Int :=
  (ilog2 g : Int) - 8

/-- `cxl_to_eniw` as used by region.c / hdm.c: alias of `cxl_from_ways`
on an int argument converted to u8 (the header revision introducing the
alias name is not under src/; the body is cxl.h lines 84-90). -/
def cxl_to_eniw (ways : Int) : Int :=
  cxl_from_ways (u8_of_int ways)

/-- `cxl_to_ig` as used by region.c / hdm.c: alias of `cxl_from_granularity`
on an int argument converted to u16 (the header revision introducing the
alias name is not under src/; the body is cxl.h lines 92-95). -/
def cxl_to_ig (g : Int) : Int :=
  cxl_from_granularity (u16_of_int g)

/-! ## Region data model (region.h part_001, part_002; topology cxl.h)

An endpoint memdev is summarised by the attributes the region algorithms
read off the port tree: the host bridge reached by `get_hostbridge()`
(the depth-1 ancestor port), the root port dport reached by `get_rp()`,
the depth of the memdev's own port, and whether a driver is bound to it
(`targets[i]->dev.driver`). -/

structure CxlMemdev where
  hb : Nat
  rp : Nat
  port_depth : Nat
  driver_bound : Bool
deriving DecidableEq

/-- `struct cxl_region::config` (region.h, part_001 lines 36-42).  The
16-slot `targets` array is modelled as a map from slot index to an
optional memdev (`none` = NULL slot). -/
structure CxlRegionConfig where
  size : Nat
  interleave_ways : Int
  interleave_granularity : Int
  targets : Nat → Option CxlMemdev

structure CxlRegion where
  config : CxlRegionConfig

/-- part_002 lines 38-49 `is_cxl_region_configured`: non-zero size and a
non-NULL `targets[0]`. -/
def is_cxl_region_configured (cxlr : CxlRegion) : Bool :=
  if cxlr.config.size = 0 then false
  else if (cxlr.config.targets 0).isNone then false
  else true

/-! ## Interleave validity predicates (region.h part_000 lines 47-91)

region.c calls single-argument forms of these predicates; the region.h
revision with those bodies is not under src/.  They are modelled from the
checks of part_000 that do not involve the root decoder: the ways switch
(part_000 lines 53-62, `case 0 ... 4`, 6, 8, 12, 16) and the granularity
power-of-two / 16K-maximum tests (part_000 lines 79-84), matching the
spec (ways set, granularity a power of two at most 16K). -/

/-- The ways switch of part_000 lines 53-62 on a C int: accepts 0..4, 6,
8, 12 and 16.  Note that 0 is accepted. -/
def cxl_is_interleave_ways_valid (iw : Int) : Bool :=
  (0 ≤ iw && iw ≤ 4) || iw == 6 || iw == 8 || iw == 12 || iw == 16

/-- C arithmetic shift right of a signed int (floor division by 2^k). -/
def c_sar (x : Int) (k : Nat) : Int :=
  Int.fdiv x (2 ^ k)

/-- part_000 lines 79-84: `is_power_of_2(ig)` (argument converted to
unsigned long) and `ig >> 15` zero, i.e. a power of two at most 16K. -/
def cxl_is_interleave_granularity_valid (ig : Int) : Bool :=
  is_power_of_2 (u64_of_int ig) && c_sar ig 15 == 0

/-! ## sanitize_region (region.c lines 112-157) -/

def SZ_256M : Int := 0x10000000

/-- The target loop of region.c lines 143-154: walk slots `i, i+1, ...`
for `n` steps; a NULL slot returns - ENXIO, an unbound one -ENODEV. -/
def sanitize_targets (targets : Nat → Option CxlMemdev) : Nat → Nat → Int
  | _, 0 => 0
  | i, n + 1 =>
    match targets i with
    | none => - ENXIO
    | some ep => if ep.driver_bound then sanitize_targets targets (i + 1) n
                 else -ENODEV

/-- region.c lines 112-157 `sanitize_region`.  The size-alignment divisor
`SZ_256M * iw` is computed in C `int` arithmetic (32-bit, wrapping) and
then converted to u64 for the modulo against `config.size`; a zero
divisor is a division by zero, modelled as `none` (undefined behaviour). -/
def sanitize_region (cxlr : CxlRegion) : Option Int :=
  let ig := cxlr.config.interleave_granularity
  let iw := cxlr.config.interleave_ways
  if ¬ is_cxl_region_configured cxlr then some (- ENXIO)
  else if ¬ cxl_is_interleave_ways_valid iw then some (- ENXIO)
  else if ¬ cxl_is_interleave_granularity_valid ig then some (- ENXIO)
  else
    let divisor := u64_of_int (c_int_mul SZ_256M iw)
    if divisor = 0 then none
    else if cxlr.config.size % divisor ≠ 0 then some (- ENXIO)
    else some (sanitize_targets cxlr.config.targets 0 iw.toNat)

/-- The acceptance condition claimed for `sanitize_region` (C2, following
the claim's words): ways in the defined set, granularity a power of two at
most 16384, size an exact (mathematical) multiple of 256MiB times ways,
and the first `ways` targets present and driver-bound. -/
def c2_spec_accepts (cxlr : CxlRegion) : Bool :=
  let iw := cxlr.config.interleave_ways
  let ig := cxlr.config.interleave_granularity
  (iw == 1 || iw == 2 || iw == 3 || iw == 4 || iw == 6 || iw == 8 ||
     iw == 12 || iw == 16)
  && is_power_of_2 (u64_of_int ig) && ig ≤ 16384
  && cxlr.config.size % (268435456 * iw.toNat) == 0
  && (List.range iw.toNat).all (fun i =>
        match cxlr.config.targets i with
        | none => false
        | some ep => ep.driver_bound)

/-- A fully-populated, driver-bound 16-slot target map. -/
def c2_targets : Nat → Option CxlMemdev := fun i =>
  if i < 16 then some ⟨1, 1, 2, true⟩ else none

/-- ways = 16, granularity = 256, size = 2^32 = 256MiB x 16: every
condition of C2 holds, so the claim demands success. -/
def c2_region16 : CxlRegion :=
  ⟨⟨2 ^ 32, 16, 256, c2_targets⟩⟩

/-- ways = 8, granularity = 256, size = 2^31 = 256MiB x 8: every condition
of C2 holds, so the claim demands success. -/
def c2_region8 : CxlRegion :=
  ⟨⟨2 ^ 31, 8, 256, c2_targets⟩⟩

/-- ways = 2, granularity = 256, size = 2^29 = 256MiB x 2: a configuration
on which the code and the claim agree. -/
def c2_region2 : CxlRegion :=
  ⟨⟨2 ^ 29, 2, 256, c2_targets⟩⟩

/-! ## Interleave ways / granularity setters (part_003, part_000)

part_003 is the core-region sysfs revision whose `struct cxl_region`
carries `interleave_ways` / `interleave_granularity` at top level and
whose device may have a bound driver (`dev->driver`). -/

structure CxlRegionS where
  bound : Bool
  interleave_ways : Int
  interleave_granularity : Int
deriving DecidableEq

/-- `struct cxl_decoder` as read by the validators and the commit path:
interleave settings, flags, the decoded host range, and (for root and
switch decoders) the ordered dport target list, summarised by each
target's hardware `port_id`. -/
structure CxlDecoder where
  flags : Nat
  interleave_ways : Int
  interleave_granularity : Int
  nr_targets : Nat
  target_port_id : Nat → Int
  range_start : Nat
  range_end : Nat

/-- C left shift of a signed int by a signed count: counts outside
[0, 32) are undefined behaviour in C, modelled arbitrarily as 0 (no
theorem below depends on that case); in-range shifts wrap at 32 bits. -/
def c_shl (a : Int) (s : Int) : Int :=
  if s < 0 ∨ 32 ≤ s then 0 else wrap32 (a * 2 ^ s.toNat)

/-- part_000 lines 47-72 `cxl_is_interleave_ways_valid(cxlr, rootd, ways)`
(u8 ways): the ways switch, then trivially true for a 1-way root decoder,
else the device-count bound
`(1 << (root_ig - region_ig)) * (1 << root_eniw) <= ways`. -/
def cxl_is_interleave_ways_valid3 (cxlr : CxlRegionS) (rootd : CxlDecoder)
    (ways : Nat) : Bool :=
  if ¬ cxl_is_interleave_ways_valid ways then false
  else if rootd.interleave_ways == 1 then true
  else
    let root_ig := cxl_from_granularity (u16_of_int rootd.interleave_granularity)
    let region_ig := cxl_from_granularity (u16_of_int cxlr.interleave_granularity)
    let root_eniw := cxl_from_ways (u8_of_int rootd.interleave_ways)
    c_int_mul (c_shl 1 (root_ig - region_ig)) (c_shl 1 root_eniw) ≤ (ways : Int)

/-- part_000 lines 74-91 `cxl_is_interleave_granularity_valid(rootd, ig)`:
power of two, at most 16K, and not finer than the root decoder
(`rootd_hbig < cxl_from_granularity(ig)` rejects). -/
def cxl_is_interleave_granularity_valid2 (rootd : CxlDecoder) (ig : Int) :
    Bool :=
  if ¬ is_power_of_2 (u64_of_int ig) then false
  else if c_sar ig 15 != 0 then false
  else
    let rootd_hbig := cxl_from_granularity (u16_of_int rootd.interleave_granularity)
    if rootd_hbig < cxl_from_granularity (u16_of_int ig) then false
    else true

/-- part_003 lines 67-114 `interleave_ways_store` after a successful
`kstrtoint` (the parsed value is the `val` argument).  Returns the error
code (0 = success; the C function returns the written length) and the
region state after the call.  `sysfs_update_group` is a collaborator and
is modelled as succeeding. -/
def interleave_ways_store (cxlr : CxlRegionS) (rootd : CxlDecoder)
    (val : Int) : Int × CxlRegionS :=
  if cxlr.bound then (-EBUSY, cxlr)
  else if cxlr.interleave_ways != 0 then (-EEXIST, cxlr)
  else if cxlr.interleave_granularity == 0 then (-EILSEQ, cxlr)
  else if ¬ cxl_is_interleave_ways_valid3 cxlr rootd (u8_of_int val) then
    (-EINVAL, cxlr)
  else (0, { cxlr with interleave_ways := val })

/-- part_003 lines 125-160 `interleave_granularity_store` after a
successful `kstrtoint`. -/
def interleave_granularity_store (cxlr : CxlRegionS) (rootd : CxlDecoder)
    (val : Int) : Int × CxlRegionS :=
  if cxlr.bound then (-EBUSY, cxlr)
  else if cxlr.interleave_granularity != 0 then (-EEXIST, cxlr)
  else if ¬ cxl_is_interleave_granularity_valid2 rootd val then (-EINVAL, cxlr)
  else (0, { cxlr with interleave_granularity := val })

/-! ## HDM decoder registers (cxl.h lines 44-58, core/hdm.c)

One decoder's register bank.  Control-register bits per cxl.h:
LOCK = bit 8, COMMIT = bit 9, COMMITTED = bit 10, TYPE = bit 12;
IG field = bits 3:0, IW field = bits 7:4.  The commit-error bit tested by
`wait_for_commit` is not defined in the cxl.h under src/; it is modelled
from the spec (the explicit commit-error control bit) as bit 11, the
position between COMMITTED and TYPE in the CXL 2.0 8.2.5.12.7 layout. -/

def CXL_HDM_DECODER0_CTRL_LOCK : Nat := 2 ^ 8
def CXL_HDM_DECODER0_CTRL_COMMIT : Nat := 2 ^ 9
def CXL_HDM_DECODER0_CTRL_COMMITTED : Nat := 2 ^ 10
def CXL_HDM_DECODER0_CTRL_COMMIT_ERROR : Nat := 2 ^ 11
def CXL_HDM_DECODER0_CTRL_TYPE : Nat := 2 ^ 12
def CXL_DECODER_F_LOCK : Nat := 2 ^ 4
def CXL_DECODER_F_ENABLE : Nat := 2 ^ 5
def U64_MAX : Nat := 2 ^ 64 - 1

/-- C conversion of a signed value to u32. -/
def u32_of_int (x : Int) : Nat :=
  (x % 2 ^ 32).toNat

/-- `u32p_replace_bits(&ctrl, val, mask)` for a contiguous mask of `w`
bits starting at bit `lo`: clear the field and or-in
`FIELD_PREP(mask, val)` (the value is converted to u32 and truncated to
the field width). -/
def replace_field (ctrl : Nat) (lo w : Nat) (v : Int) : Nat :=
  (ctrl &&& ((2 ^ 32 - 1) ^^^ ((2 ^ w - 1) <<< lo))) |||
    ((u32_of_int v <<< lo) &&& ((2 ^ w - 1) <<< lo))

/-- `FIELD_PREP(GENMASK(lo+7, lo), port_id)`: one byte of a target-list
word. -/
def field_prep8 (lo : Nat) (pid : Int) : Nat :=
  (u32_of_int pid <<< lo) &&& (255 <<< lo)

/-- The registers of one HDM decoder slot as read by the commit path. -/
structure HwRegs where
  ctrl : Nat
  base_lo : Nat
  base_hi : Nat
  size_lo : Nat
  size_hi : Nat
  tl_lo : Nat
  tl_hi : Nat

/-- The registers written by `cxl_commit_decoder`, in program order. -/
inductive HdmReg where
  | tl_high
  | tl_low
  | size_high
  | size_low
  | base_high
  | base_low
  | ctrl
deriving DecidableEq, Repr

/-- `range_len(&cxld->decoder_range)` = end - start + 1 in u64
arithmetic. -/
def range_len (cxld : CxlDecoder) : Nat :=
  (cxld.range_end + 1 + (2 ^ 64 - cxld.range_start)) % 2 ^ 64

/-- hdm.c lines 272-303 `wait_for_commit` poll loop body.  `reads n` is
the control-register value observed by the n-th `readl`; `r` is the
number of polls left before `time_after(jiffies, end)` becomes true (the
10 ms deadline).  Each iteration checks, in order: committed bit set
(success), deadline elapsed (-ETIMEDOUT), commit-error bit (- ENXIO). -/
def wait_for_commit_go (reads : Nat → Nat) : Nat → Nat → Int
  | n, 0 =>
    if reads n &&& CXL_HDM_DECODER0_CTRL_COMMITTED ≠ 0 then 0 else -ETIMEDOUT
  | n, r + 1 =>
    let ctrl := reads n
    if ctrl &&& CXL_HDM_DECODER0_CTRL_COMMITTED ≠ 0 then 0
    else if ctrl &&& CXL_HDM_DECODER0_CTRL_COMMIT_ERROR ≠ 0 then - ENXIO
    else wait_for_commit_go reads (n + 1) r

/-- hdm.c lines 272-303 `wait_for_commit`, with the 10 ms deadline
abstracted as the number of polls `deadline` after which
`time_after(jiffies, end)` holds. -/
def wait_for_commit (reads : Nat → Nat) (deadline : Nat) : Int :=
  wait_for_commit_go reads 0 deadline

structure CommitResult where
  rc : Int
  flags : Nat
  writes : List (HdmReg × Nat)
deriving DecidableEq, Repr

/-- hdm.c lines 314-438 `cxl_commit_decoder`.
`hw` holds the initial register reads, `reads` the control values
observed by the poll loop after the register writes.  The result records
the return code, the decoder's software flags after the call, and the
ordered list of register writes performed (empty = no hardware touched). -/
def cxl_commit_decoder (cxld : CxlDecoder) (hw : HwRegs)
    (reads : Nat → Nat) (deadline : Nat) : CommitResult :=
  if cxld.flags &&& CXL_DECODER_F_ENABLE ≠ 0 then ⟨- ENXIO, cxld.flags, []⟩
  else if hw.ctrl &&& CXL_HDM_DECODER0_CTRL_COMMITTED ≠ 0 ∧
      (hw.size_lo + hw.size_hi) % 2 ^ 32 ≠ 0 then ⟨-EBUSY, cxld.flags, []⟩
  else
    let ctrl1 := replace_field hw.ctrl 0 4 (cxl_to_ig cxld.interleave_granularity)
    let ctrl2 := replace_field ctrl1 4 4 (cxl_to_eniw cxld.interleave_ways)
    let ctrl3 := replace_field ctrl2 9 1 1
    let ctrl4 := replace_field ctrl3 12 1 1
    let base_lo := 0xF0000000 &&& (cxld.range_start % 2 ^ 32)
    let base_hi := cxld.range_start >>> 32
    let size_lo := 0xF0000000 &&& (range_len cxld % 2 ^ 32)
    let size_hi := (range_len cxld >>> 32) >>> 32
    let iw := cxld.interleave_ways
    let tl_lo :=
      if cxld.nr_targets > 0 then
        field_prep8 0 (cxld.target_port_id 0) |||
        (if iw > 1 then field_prep8 8 (cxld.target_port_id 1) else 0) |||
        (if iw > 2 then field_prep8 16 (cxld.target_port_id 2) else 0) |||
        (if iw > 3 then field_prep8 24 (cxld.target_port_id 3) else 0)
      else 0
    let tl_hi :=
      if cxld.nr_targets > 0 then
        (if iw > 4 then field_prep8 0 (cxld.target_port_id 4) else 0) |||
        (if iw > 5 then field_prep8 8 (cxld.target_port_id 5) else 0) |||
        (if iw > 6 then field_prep8 16 (cxld.target_port_id 6) else 0) |||
        (if iw > 7 then field_prep8 24 (cxld.target_port_id 7) else 0)
      else 0
    let writes := [(HdmReg.tl_high, tl_hi), (HdmReg.tl_low, tl_lo),
                   (HdmReg.size_high, size_hi), (HdmReg.size_low, size_lo),
                   (HdmReg.base_high, base_hi), (HdmReg.base_low, base_lo),
                   (HdmReg.ctrl, ctrl4)]
    let rc := wait_for_commit reads deadline
    if rc ≠ 0 then ⟨rc, cxld.flags, writes⟩
    else ⟨0, cxld.flags ||| CXL_DECODER_F_ENABLE, writes⟩

/-! ## Decoder enumeration (core/hdm.c lines 146-269) -/

/-- One decoder slot's registers as read by `init_hdm_decoder` (its
`ioread64_hi_lo` composites for base and size). -/
structure SlotRegs where
  ctrl : Nat
  base : Nat
  size : Nat
deriving DecidableEq

/-- The fields `init_hdm_decoder` fills in on success.  The target-map
bytes read for committed switch decoders are not modelled (no claim
concerns them; note the C code reads `target_id[i]` for every
`i < interleave_ways` out of an 8-byte union). -/
structure HdmDecoderState where
  range_start : Nat
  range_end : Nat
  flags : Nat
  interleave_ways : Nat
  interleave_granularity : Int
  expander : Bool
deriving DecidableEq

/-- hdm.c lines 146-203 `init_hdm_decoder`: an uncommitted slot's size is
treated as 0; a base or (remaining) size equal to the all-ones sentinel
fails with - ENXIO; an interleave-ways encoding that decodes to 0 fails
with - ENXIO; otherwise the slot yields a decoder (`none` = failure). -/
def init_hdm_decoder (s : SlotRegs) : Option HdmDecoderState :=
  let size := if s.ctrl &&& CXL_HDM_DECODER0_CTRL_COMMITTED ≠ 0 then s.size
              else 0
  if s.base = U64_MAX ∨ size = U64_MAX then none
  else
    let flags := if s.ctrl &&& CXL_HDM_DECODER0_CTRL_COMMITTED ≠ 0 then
                   CXL_DECODER_F_ENABLE |||
                     (if s.ctrl &&& CXL_HDM_DECODER0_CTRL_LOCK ≠ 0 then
                        CXL_DECODER_F_LOCK else 0)
                 else 0
    let iw := cxl_to_interleave_ways ((s.ctrl >>> 4) &&& 15)
    if iw = 0 then none
    else some ⟨s.base, (s.base + size + (2 ^ 64 - 1)) % 2 ^ 64, flags, iw,
               cxl_to_interleave_granularity (s.ctrl &&& 15),
               s.ctrl &&& CXL_HDM_DECODER0_CTRL_TYPE ≠ 0⟩

/-- hdm.c lines 209-269 `devm_cxl_enumerate_decoders`: walk every slot,
counting slots whose `init_hdm_decoder` fails (each such slot is skipped
with `continue`, so it does not abort the others); fail with - ENXIO iff
the failure count equals the slot count.  Decoder allocation and
`add_hdm_decoder` are collaborators modelled as succeeding, and the
settle delay (`msleep(20)`) has no effect on this state. -/
def devm_cxl_enumerate_decoders (slots : List SlotRegs) : Int :=
  if slots.countP (fun s => (init_hdm_decoder s).isNone) = slots.length then
    - ENXIO
  else 0

/-! ## Topology walk and validators (region.c lines 36-501)

`get_hostbridge(ep)` / `get_rp(ep)` walk the port tree to the depth-1
ancestor port resp. the root-port dport; they are summarised by the
`hb` / `rp` attributes of `CxlMemdev`.  Dereferencing `targets[i]`
(which the C code does without a NULL check in these validators) is
modelled by `epAt`; every theorem about the validators either uses a
fully-populated concrete region or assumes nothing about absent slots. -/

def epAt (cxlr : CxlRegion) (i : Nat) : CxlMemdev :=
  (cxlr.config.targets i).getD ⟨0, 0, 0, false⟩

def region_ways_nat (cxlr : CxlRegion) : Nat :=
  cxlr.config.interleave_ways.toNat

/-- First-seen-order list of distinct values (the `hbs[]` / root-port
collection idiom of region.c lines 216-238 and 327-348). -/
def collect_distinct (l : List Nat) : List Nat :=
  l.foldl (fun acc x => if x ∈ acc then acc else acc ++ [x]) []

/-- region.c lines 216-238 `get_unique_hostbridges` (the returned count
is the length; the `hbs` output array is the list itself). -/
def get_unique_hostbridges (cxlr : CxlRegion) : List Nat :=
  collect_distinct ((List.range (region_ways_nat cxlr)).map
    (fun i => (epAt cxlr i).hb))

/-- region.c lines 327-348 `get_num_root_ports`: number of distinct root
ports across the region's endpoints. -/
def get_num_root_ports (cxlr : CxlRegion) : Nat :=
  (collect_distinct ((List.range (region_ways_nat cxlr)).map
    (fun i => (epAt cxlr i).rp))).length

/-- region.c lines 350-360 `has_switch`: some endpoint's port is deeper
than 2. -/
def has_switch (cxlr : CxlRegion) : Bool :=
  (List.range (region_ways_nat cxlr)).any (fun i => 2 < (epAt cxlr i).port_depth)

/-- region.c lines 250-307 `region_xhb_config_valid`.  The final target
check is transcribed with the C operator precedence of line 298:
`(i >> (rootd_ig - cxlr_ig)) & (((1 << rootd_eniw) - 1) != target->port_id)`
— the comparison sits inside the bitwise and — and the
`for_each_cxl_decoder_target` macro (lines 46-49) iterates only while
`idx < nr_targets - 1`, skipping the last target. -/
def region_xhb_config_valid (cxlr : CxlRegion) (rootd : CxlDecoder) : Bool :=
  let rootd_eniw := cxl_to_eniw rootd.interleave_ways
  let rootd_ig := cxl_to_ig rootd.interleave_granularity
  let cxlr_ig := cxl_to_ig cxlr.config.interleave_granularity
  let cxlr_iw := cxlr.config.interleave_ways
  let hb_count := (get_unique_hostbridges cxlr).length
  if hb_count = 0 then false
  else if hb_count = 1 then true
  else if rootd_ig < cxlr_ig then false
  else if cxlr_iw <
      c_int_mul (c_shl 1 (rootd_ig - cxlr_ig)) (c_shl 1 rootd_eniw) then
    false
  else if (List.range (rootd.nr_targets - 1)).any (fun i =>
      (i >>> (rootd_ig - cxlr_ig).toNat) &&&
        (if (c_shl 1 rootd_eniw - 1) ≠ rootd.target_port_id i then 1 else 0)
        ≠ 0) then false
  else true

/-- The cross-host-bridge validity condition as the claim C5 words it
(for comparison with `region_xhb_config_valid`): single host bridge is
trivially valid; otherwise the root granularity exponent must not be
below the region's, `2^(root_ig - region_ig) * 2^root_eniw` must not
exceed the region's ways, and every target `i` of the root decoder's
target list must satisfy
`(i >> (root_ig - region_ig)) & (2^root_eniw - 1) == port_id(i)`. -/
def c5_spec_valid (cxlr : CxlRegion) (rootd : CxlDecoder) : Bool :=
  let rootd_eniw := cxl_to_eniw rootd.interleave_ways
  let rootd_ig := cxl_to_ig rootd.interleave_granularity
  let cxlr_ig := cxl_to_ig cxlr.config.interleave_granularity
  if (get_unique_hostbridges cxlr).length ≤ 1 then true
  else
    decide (cxlr_ig ≤ rootd_ig) &&
    decide (((2 ^ (rootd_ig - cxlr_ig).toNat * 2 ^ rootd_eniw.toNat : Nat) : Int)
      ≤ cxlr.config.interleave_ways) &&
    (List.range rootd.nr_targets).all (fun i =>
      decide ((((i >>> (rootd_ig - cxlr_ig).toNat) &&&
        (2 ^ rootd_eniw.toNat - 1) : Nat) : Int) = rootd.target_port_id i))

/-! ## Host-bridge root-port validation with staging (region.c 362-501)

`cxl_get_decoder` (a collaborator not under src/) is modelled from the
spec as always handing out a fresh decoder for the requested port;
`get_decoder` (region.c lines 362-381) links it on the region's staged
list.  A staged decoder records the port it came from and the fields the
validator programs.  `cxl_put_decoder` (release) is observed through the
`released` component of the result; note the error path of
`region_hb_rp_config_valid` (lines 495-500) puts every staged decoder
but does not unlink it, so `staged` is not cleared there, while
`cleanup_staged_decoders` (lines 576-584) puts and unlinks. -/

structure StagedDecoder where
  port : Nat
  interleave_ways : Int
  interleave_granularity : Int
  target0 : Option Nat
deriving DecidableEq, Repr

/-- Per-host-bridge dport lists (each entry a root-port id, in the
`port->dports` list order). -/
structure CxlTopology where
  hbDports : Nat → List Nat

structure HbRpResult where
  valid : Bool
  staged : List StagedDecoder
  released : List StagedDecoder
deriving DecidableEq, Repr

/-- region.c line 458: `position_mask = (1 << ilog2(num_root_ports)) - 1`. -/
def position_mask (cxlr : CxlRegion) : Nat :=
  (1 <<< ilog2 (get_num_root_ports cxlr)) - 1

/-- The endpoint indexes (region positions) reached through root port
`rp` of host bridge `hb`, in region order — the iteration space of
`for_each_cxl_endpoint_hb` (lines 40-44) filtered by `get_rp(ep) == rp`
(line 474). -/
def endpoints_on_hb_rp (cxlr : CxlRegion) (hb rp : Nat) : List Nat :=
  (List.range (region_ways_nat cxlr)).filter
    (fun i => (epAt cxlr i).hb == hb && (epAt cxlr i).rp == rp)

/-- region.c lines 469-490: all endpoints under one root port must share
the port grouping `idx & position_mask` of the first one. -/
def port_grouping_ok (idxs : List Nat) (mask : Nat) : Bool :=
  match idxs with
  | [] => true
  | h :: t => t.all (fun i => (i &&& mask) == (h &&& mask))

/-- The root-port loop of one host bridge (lines 469-490). -/
def hb_rps_ok (topo : CxlTopology) (cxlr : CxlRegion) (mask hb : Nat) :
    Bool :=
  (topo.hbDports hb).all
    (fun rp => port_grouping_ok (endpoints_on_hb_rp cxlr hb rp) mask)

/-- The host-bridge loop of region.c lines 430-491 with the error path of
lines 495-500: when updating state, a decoder (ways 0, the region's
granularity) is staged for each host bridge before its root ports are
checked; the first grouping violation returns false after putting every
decoder currently on the staged list — without unlinking them. -/
def hb_loop (topo : CxlTopology) (cxlr : CxlRegion) (mask : Nat)
    (state_update : Bool) : List Nat → List StagedDecoder → HbRpResult
  | [], st => ⟨true, st, []⟩
  | hb :: rest, st =>
    let st' := if state_update then
                 st ++ [⟨hb, 0, cxlr.config.interleave_granularity, none⟩]
               else st
    if hb_rps_ok topo cxlr mask hb then hb_loop topo cxlr mask state_update rest st'
    else ⟨false, st', st'⟩

/-- region.c lines 408-501 `region_hb_rp_config_valid` (the `rootd`
parameter of the C function is unused and omitted).  `st0` is the
region's staged list on entry.  Switch topologies fail immediately; a
single root port with `state_update` takes the `simple_config` path
(lines 383-395), staging one decoder at `hbs[0]` with ways 1, the
region's granularity, and the first endpoint's root port as target 0. -/
def region_hb_rp_config_valid (topo : CxlTopology) (cxlr : CxlRegion)
    (state_update : Bool) (st0 : List StagedDecoder) : HbRpResult :=
  let hbs := get_unique_hostbridges cxlr
  if has_switch cxlr then ⟨false, st0, []⟩
  else if get_num_root_ports cxlr == 1 && state_update then
    ⟨true, st0 ++ [⟨hbs.headD 0, 1, cxlr.config.interleave_granularity,
                    some (epAt cxlr 0).rp⟩], []⟩
  else hb_loop topo cxlr (position_mask cxlr) state_update hbs st0

/-! ## Concrete instances used by counterexamples and witnesses -/

/-- The ways / granularity domains of the data-model invariant (§3). -/
def validWaysList : List Int := [1, 2, 3, 4, 6, 8, 12, 16]
def validGranList : List Int := [256, 512, 1024, 2048, 4096, 8192, 16384]

/-- Two endpoints on different host bridges (1 and 2), root ports 1 and
2, no switch. -/
def c5_targets : Nat → Option CxlMemdev := fun i =>
  if i = 0 then some ⟨1, 1, 2, true⟩
  else if i = 1 then some ⟨2, 2, 2, true⟩
  else none

/-- ways = 2, granularity = 256 region spanning host bridges 1 and 2. -/
def c5_region : CxlRegion := ⟨⟨2 ^ 29, 2, 256, c5_targets⟩⟩

/-- Root decoder: 2-way, granularity 256, two targets whose port ids (5
and 7) both violate the claimed position formula. -/
def c5_rootd : CxlDecoder :=
  ⟨0, 2, 256, 2, fun i => if i = 0 then 5 else 7, 0, 0⟩

/-- Four endpoints split over host bridges 1 and 2 (root ports 10 and
20) with mismatched groupings: endpoints 0 and 1 share root port 10 but
have positions 0 and 1, which differ under position mask 1. -/
def c6_targets : Nat → Option CxlMemdev := fun i =>
  if i = 0 then some ⟨1, 10, 2, true⟩
  else if i = 1 then some ⟨1, 10, 2, true⟩
  else if i = 2 then some ⟨2, 20, 2, true⟩
  else if i = 3 then some ⟨2, 20, 2, true⟩
  else none

def c6_region : CxlRegion := ⟨⟨2 ^ 30, 4, 256, c6_targets⟩⟩

def c6_topo : CxlTopology :=
  ⟨fun hb => if hb = 1 then [10] else if hb = 2 then [20] else []⟩

/-- One endpoint under host bridge 3, root port 7, depth 2. -/
def c7_targets : Nat → Option CxlMemdev := fun i =>
  if i = 0 then some ⟨3, 7, 2, true⟩ else none

def c7_region : CxlRegion := ⟨⟨2 ^ 28, 1, 256, c7_targets⟩⟩

def c7_topo : CxlTopology := ⟨fun hb => if hb = 3 then [7] else []⟩

/-- A 2-way cross-host-bridge setup on which the amended XHB
characterization is exercised: root decoder targets with port ids 0, 1. -/
def w5_rootd : CxlDecoder :=
  ⟨0, 2, 256, 2, fun i => if i = 0 then 0 else 1, 0, 0⟩

/-! # Theorems -/

/-- C1 --- the encodings round-trip on the power-of-two family and for all
valid granularities, and out-of-range encodings decode to the invalid
marker 0; but on the power-of-three family the code's `ways / 3 + 8`
(instead of `ilog2(ways / 3) + 8`) breaks the round-trip:
3 encodes to 9 which decodes to 6, 6 encodes to 10 which decodes to 12,
and 12 encodes to 12 which decodes to the invalid marker 0. -/
theorem C1_interleave_math :
    (∀ w ∈ [1, 2, 4, 8, 16],
        cxl_to_interleave_ways (u8_of_int (cxl_from_ways w)) = w)
  ∧ (∀ g ∈ [256, 512, 1024, 2048, 4096, 8192, 16384],
        cxl_to_interleave_granularity (u16_of_int (cxl_from_granularity g)) = g)
  ∧ (∀ e : Nat, e < 256 → ¬(e ≤ 4 ∨ (8 ≤ e ∧ e ≤ 10)) →
        cxl_to_interleave_ways e = 0)
  ∧ cxl_to_interleave_ways (u8_of_int (cxl_from_ways 3)) = 6
  ∧ cxl_to_interleave_ways (u8_of_int (cxl_from_ways 6)) = 12
  ∧ cxl_to_interleave_ways (u8_of_int (cxl_from_ways 12)) = 0 := by
  decide

/-- C2 --- the claimed acceptance condition holds for the ways = 16 and
ways = 8 regions, yet the code does not return success: `SZ_256M * iw`
is computed in 32-bit int arithmetic, so for ways = 16 it wraps to 0 and
`size % 0` divides by zero (modelled `none`), and for ways = 8 it wraps
to -2^31, which the u64 conversion turns into 2^64 - 2^31, making the
size check fail spuriously (- ENXIO).  For ways = 2 (no overflow) code and
claim agree. -/
theorem C2_sanitize_region_bug :
    c2_spec_accepts c2_region16 = true
  ∧ sanitize_region c2_region16 = none
  ∧ c2_spec_accepts c2_region8 = true
  ∧ sanitize_region c2_region8 = some (- ENXIO)
  ∧ c2_spec_accepts c2_region2 = true
  ∧ sanitize_region c2_region2 = some 0 := by
  refine ⟨by decide, by decide, by decide, by decide, by decide, by decide⟩

/-- C10 --- the ways-validity predicate accepts 0 (its switch covers
0..4), so a configured region with `interleave_ways = 0` that passes the
granularity check reaches the size-alignment modulo with divisor
`SZ_256M * 0 = 0`: a division by zero (modelled `none`). -/
theorem C10_ways_zero_division_by_zero :
    cxl_is_interleave_ways_valid 0 = true
  ∧ ∀ cxlr : CxlRegion, is_cxl_region_configured cxlr = true →
      cxlr.config.interleave_ways = 0 →
      cxl_is_interleave_granularity_valid cxlr.config.interleave_granularity
        = true →
      sanitize_region cxlr = none := by
  refine ⟨by decide, ?_⟩
  intro cxlr hconf hways hig
  have hdiv : u64_of_int (c_int_mul SZ_256M 0) = 0 := by decide
  have hv : cxl_is_interleave_ways_valid 0 = true := by decide
  simp [sanitize_region, hconf, hways, hig, hdiv, hv]

/-- Witness for C10 at a concrete region (ways = 0, granularity = 256,
size = 1, target0 present). -/
theorem C10_witness :
    sanitize_region ⟨⟨1, 0, 256, c2_targets⟩⟩ = none :=
  C10_ways_zero_division_by_zero.2 ⟨⟨1, 0, 256, c2_targets⟩⟩
    (by decide) (by decide) (by decide)

/-- C3 --- committing a decoder whose software ENABLE flag is set fails
with - ENXIO before any register write: the result carries an empty write
list and unchanged flags (the function is pure in the model, so no other
software state is touched either). -/
theorem C3_commit_enabled_fails :
    ∀ (cxld : CxlDecoder) (hw : HwRegs) (reads : Nat → Nat) (deadline : Nat),
      cxld.flags &&& CXL_DECODER_F_ENABLE ≠ 0 →
      cxl_commit_decoder cxld hw reads deadline = ⟨- ENXIO, cxld.flags, []⟩ := by
  intro cxld hw reads deadline h
  simp [cxl_commit_decoder, h]

/-- Witness for C3: a decoder with ENABLE (bit 5) set. -/
theorem C3_commit_enabled_fails_witness :
    cxl_commit_decoder ⟨32, 1, 256, 0, fun _ => 0, 0, 0⟩ ⟨0, 0, 0, 0, 0, 0, 0⟩
      (fun _ => 0) 0 = ⟨- ENXIO, 32, []⟩ :=
  C3_commit_enabled_fails ⟨32, 1, 256, 0, fun _ => 0, 0, 0⟩
    ⟨0, 0, 0, 0, 0, 0, 0⟩ (fun _ => 0) 0 (by decide)

/-- The poll loop times out when the committed bit is never observed
within the deadline and no error bit is seen first. -/
theorem wfc_go_timeout (reads : Nat → Nat) :
    ∀ (r n : Nat),
      (∀ k, k ≤ r → reads (n + k) &&& CXL_HDM_DECODER0_CTRL_COMMITTED = 0) →
      (∀ k, k < r → reads (n + k) &&& CXL_HDM_DECODER0_CTRL_COMMIT_ERROR = 0) →
      wait_for_commit_go reads n r = -ETIMEDOUT := by
  intro r
  induction r with
  | zero =>
    intro n h1 _
    have h0 := h1 0 (Nat.le_refl 0)
    simp only [Nat.add_zero] at h0
    simp [wait_for_commit_go, h0]
  | succ r ih =>
    intro n h1 h2
    have hc := h1 0 (Nat.zero_le _)
    have he := h2 0 (Nat.succ_pos _)
    simp only [Nat.add_zero] at hc he
    simp only [wait_for_commit_go, hc, he]
    simp only [ne_eq, not_true_eq_false, if_false, not_false_eq_true,
      if_true, if_neg, reduceIte]
    exact ih (n + 1)
      (fun k hk => by
        have := h1 (k + 1) (Nat.succ_le_succ hk)
        simpa [Nat.add_assoc, Nat.add_comm 1 k] using this)
      (fun k hk => by
        have := h2 (k + 1) (Nat.succ_lt_succ hk)
        simpa [Nat.add_assoc, Nat.add_comm 1 k] using this)

/-- The poll loop returns success as soon as the committed bit is
observed, provided nothing terminated it earlier. -/
theorem wfc_go_success (reads : Nat → Nat) :
    ∀ (j r n : Nat), j ≤ r →
      reads (n + j) &&& CXL_HDM_DECODER0_CTRL_COMMITTED ≠ 0 →
      (∀ m, m < j → reads (n + m) &&& CXL_HDM_DECODER0_CTRL_COMMITTED = 0 ∧
         reads (n + m) &&& CXL_HDM_DECODER0_CTRL_COMMIT_ERROR = 0) →
      wait_for_commit_go reads n r = 0 := by
  intro j
  induction j with
  | zero =>
    intro r n _ hcom _
    simp only [Nat.add_zero] at hcom
    cases r with
    | zero => simp [wait_for_commit_go, hcom]
    | succ r => simp [wait_for_commit_go, hcom]
  | succ j ih =>
    intro r n hjr hcom hpre
    cases r with
    | zero => exact absurd hjr (by omega)
    | succ r =>
      have hc0 := (hpre 0 (Nat.succ_pos _)).1
      have he0 := (hpre 0 (Nat.succ_pos _)).2
      simp only [Nat.add_zero] at hc0 he0
      simp only [wait_for_commit_go, hc0, he0]
      simp only [ne_eq, not_true_eq_false, if_false, not_false_eq_true,
        reduceIte]
      exact ih r (n + 1) (Nat.succ_le_succ_iff.mp hjr)
        (by simpa [Nat.add_assoc, Nat.add_comm 1 j] using hcom)
        (fun m hm => by
          have := hpre (m + 1) (Nat.succ_lt_succ hm)
          constructor
          · simpa [Nat.add_assoc, Nat.add_comm 1 m] using this.1
          · simpa [Nat.add_assoc, Nat.add_comm 1 m] using this.2)

/-- The poll loop reports the device error when the commit-error bit is
observed strictly before the deadline and before any committed bit. -/
theorem wfc_go_error (reads : Nat → Nat) :
    ∀ (j r n : Nat), j < r →
      reads (n + j) &&& CXL_HDM_DECODER0_CTRL_COMMIT_ERROR ≠ 0 →
      (∀ m, m ≤ j → reads (n + m) &&& CXL_HDM_DECODER0_CTRL_COMMITTED = 0) →
      (∀ m, m < j → reads (n + m) &&& CXL_HDM_DECODER0_CTRL_COMMIT_ERROR = 0) →
      wait_for_commit_go reads n r = - ENXIO := by
  intro j
  induction j with
  | zero =>
    intro r n hjr herr hcom _
    cases r with
    | zero => exact absurd hjr (by omega)
    | succ r =>
      have hc := hcom 0 (Nat.le_refl 0)
      simp only [Nat.add_zero] at hc herr
      simp [wait_for_commit_go, hc, herr]
  | succ j ih =>
    intro r n hjr herr hcom hpre
    cases r with
    | zero => exact absurd hjr (by omega)
    | succ r =>
      have hc0 := hcom 0 (Nat.zero_le _)
      have he0 := hpre 0 (Nat.succ_pos _)
      simp only [Nat.add_zero] at hc0 he0
      simp only [wait_for_commit_go, hc0, he0]
      simp only [ne_eq, not_true_eq_false, if_false, not_false_eq_true,
        reduceIte]
      exact ih r (n + 1) (Nat.succ_lt_succ_iff.mp hjr)
        (by simpa [Nat.add_assoc, Nat.add_comm 1 j] using herr)
        (fun m hm => by
          have := hcom (m + 1) (Nat.succ_le_succ hm)
          simpa [Nat.add_assoc, Nat.add_comm 1 m] using this)
        (fun m hm => by
          have := hpre (m + 1) (Nat.succ_lt_succ hm)
          simpa [Nat.add_assoc, Nat.add_comm 1 m] using this)

/-- C4 --- a commit attempt whose poll trace never shows the committed
bit within the deadline (and no error bit first) returns -ETIMEDOUT with
the software flags unchanged (ENABLE not set); and the poll loop
terminates on the first of: committed bit observed (success), commit
error bit observed before the deadline (- ENXIO device error), or the
deadline elapsing (-ETIMEDOUT). -/
theorem C4_commit_timeout :
    (∀ (cxld : CxlDecoder) (hw : HwRegs) (reads : Nat → Nat) (deadline : Nat),
      cxld.flags &&& CXL_DECODER_F_ENABLE = 0 →
      ¬(hw.ctrl &&& CXL_HDM_DECODER0_CTRL_COMMITTED ≠ 0 ∧
          (hw.size_lo + hw.size_hi) % 2 ^ 32 ≠ 0) →
      (∀ k, k ≤ deadline →
        reads k &&& CXL_HDM_DECODER0_CTRL_COMMITTED = 0) →
      (∀ k, k < deadline →
        reads k &&& CXL_HDM_DECODER0_CTRL_COMMIT_ERROR = 0) →
      (cxl_commit_decoder cxld hw reads deadline).rc = -ETIMEDOUT ∧
      (cxl_commit_decoder cxld hw reads deadline).flags = cxld.flags)
  ∧ (∀ (reads : Nat → Nat) (deadline n : Nat),
      n ≤ deadline →
      reads n &&& CXL_HDM_DECODER0_CTRL_COMMITTED ≠ 0 →
      (∀ m, m < n → reads m &&& CXL_HDM_DECODER0_CTRL_COMMITTED = 0 ∧
        reads m &&& CXL_HDM_DECODER0_CTRL_COMMIT_ERROR = 0) →
      wait_for_commit reads deadline = 0)
  ∧ (∀ (reads : Nat → Nat) (deadline n : Nat),
      n < deadline →
      reads n &&& CXL_HDM_DECODER0_CTRL_COMMIT_ERROR ≠ 0 →
      (∀ m, m ≤ n → reads m &&& CXL_HDM_DECODER0_CTRL_COMMITTED = 0) →
      (∀ m, m < n → reads m &&& CXL_HDM_DECODER0_CTRL_COMMIT_ERROR = 0) →
      wait_for_commit reads deadline = - ENXIO) := by
  refine ⟨?_, ?_, ?_⟩
  · intro cxld hw reads deadline hen hbusy h1 h2
    have hrc : wait_for_commit reads deadline = -ETIMEDOUT :=
      wfc_go_timeout reads deadline 0
        (fun k hk => by simpa using h1 k hk)
        (fun k hk => by simpa using h2 k hk)
    have hne : (-ETIMEDOUT : Int) ≠ 0 := by decide
    have hbusy2 : ¬(¬(hw.ctrl &&& CXL_HDM_DECODER0_CTRL_COMMITTED = 0) ∧
        ¬((hw.size_lo + hw.size_hi) % 4294967296 = 0)) := by
      simpa using hbusy
    refine ⟨?_, ?_⟩ <;> simp [cxl_commit_decoder, hen, hbusy2, hrc, hne]
  · intro reads deadline n hn hcom hpre
    exact wfc_go_success reads n deadline 0 hn (by simpa using hcom)
      (fun m hm => by simpa using hpre m hm)
  · intro reads deadline n hn herr hcom hpre
    exact wfc_go_error reads n deadline 0 hn (by simpa using herr)
      (fun m hm => by simpa using hcom m hm)
      (fun m hm => by simpa using hpre m hm)

/-- Witness for C4: an all-zero poll trace times out with flags
unchanged; a trace showing the committed bit at poll 1 succeeds; a trace
showing the error bit at poll 1 reports the device error. -/
theorem C4_commit_timeout_witness :
    ((cxl_commit_decoder ⟨0, 1, 256, 0, fun _ => 0, 0, 2 ^ 28 - 1⟩
        ⟨0, 0, 0, 0, 0, 0, 0⟩ (fun _ => 0) 2).rc = -ETIMEDOUT ∧
      (cxl_commit_decoder ⟨0, 1, 256, 0, fun _ => 0, 0, 2 ^ 28 - 1⟩
        ⟨0, 0, 0, 0, 0, 0, 0⟩ (fun _ => 0) 2).flags = 0)
  ∧ wait_for_commit
      (fun n => if n = 1 then CXL_HDM_DECODER0_CTRL_COMMITTED else 0) 3 = 0
  ∧ wait_for_commit
      (fun n => if n = 1 then CXL_HDM_DECODER0_CTRL_COMMIT_ERROR else 0) 3 =
      - ENXIO := by
  refine ⟨C4_commit_timeout.1 _ _ _ _ (by decide) (by decide)
      (fun k hk => by interval_cases k <;> decide)
      (fun k hk => by interval_cases k <;> decide),
    C4_commit_timeout.2.1 _ 3 1 (by decide) (by decide)
      (fun m hm => by interval_cases m <;> exact ⟨by decide, by decide⟩),
    C4_commit_timeout.2.2 _ 3 1 (by decide) (by decide)
      (fun m hm => by interval_cases m <;> decide)
      (fun m hm => by interval_cases m <;> decide)⟩

/-- C8 (amended) --- a slot whose base reads all-ones, or whose size
reads all-ones while its committed bit is set, fails to initialize (an
uncommitted slot's size is zeroed before the sentinel check, so its size
register value is immaterial); enumeration as a whole fails with - ENXIO
exactly when every slot fails, and succeeds exactly when some slot
initializes. -/
theorem C8_enumeration :
    (∀ s : SlotRegs,
      s.base = U64_MAX ∨
        (s.ctrl &&& CXL_HDM_DECODER0_CTRL_COMMITTED ≠ 0 ∧ s.size = U64_MAX) →
      init_hdm_decoder s = none)
  ∧ (∀ slots : List SlotRegs,
      devm_cxl_enumerate_decoders slots = - ENXIO ↔
        ∀ s ∈ slots, init_hdm_decoder s = none)
  ∧ (∀ slots : List SlotRegs,
      devm_cxl_enumerate_decoders slots = 0 ↔
        ∃ s ∈ slots, (init_hdm_decoder s).isSome) := by
  have hall : ∀ slots : List SlotRegs,
      (slots.countP (fun s => (init_hdm_decoder s).isNone) = slots.length ↔
        ∀ s ∈ slots, init_hdm_decoder s = none) := by
    intro slots
    rw [List.countP_eq_length]
    constructor
    · intro h s hs
      exact Option.isNone_iff_eq_none.mp (h s hs)
    · intro h s hs
      simp [h s hs]
  have hne : (- ENXIO : Int) ≠ 0 := by decide
  refine ⟨?_, ?_, ?_⟩
  · intro s h
    rcases h with hbase | ⟨hcom, hsize⟩
    · simp [init_hdm_decoder, hbase]
    · simp [init_hdm_decoder, hcom, hsize]
  · intro slots
    by_cases h : slots.countP (fun s => (init_hdm_decoder s).isNone) =
        slots.length
    · constructor
      · intro _
        exact (hall slots).mp h
      · intro _
        simp [devm_cxl_enumerate_decoders, h]
    · have hval : devm_cxl_enumerate_decoders slots = 0 := by
        simp [devm_cxl_enumerate_decoders, h]
      constructor
      · intro h0
        rw [hval] at h0
        exact absurd h0.symm hne
      · intro hforall
        exact absurd ((hall slots).mpr hforall) h
  · intro slots
    by_cases h : slots.countP (fun s => (init_hdm_decoder s).isNone) =
        slots.length
    · have hval : devm_cxl_enumerate_decoders slots = - ENXIO := by
        simp [devm_cxl_enumerate_decoders, h]
      constructor
      · intro h0
        rw [hval] at h0
        exact absurd h0 hne
      · rintro ⟨s, hs, hsome⟩
        have hn := (hall slots).mp h s hs
        rw [hn] at hsome
        simp at hsome
    · have hval : devm_cxl_enumerate_decoders slots = 0 := by
        simp [devm_cxl_enumerate_decoders, h]
      refine ⟨fun _ => ?_, fun _ => hval⟩
      by_contra hnone
      push_neg at hnone
      refine h ((hall slots).mpr (fun s hs => ?_))
      have hs2 := hnone s hs
      cases hv : init_hdm_decoder s with
      | none => rfl
      | some v =>
        rw [hv] at hs2
        simp at hs2

/-- Witness for C8: a slot with the base sentinel fails, and an
enumeration consisting only of that slot fails overall with - ENXIO. -/
theorem C8_enumeration_witness :
    init_hdm_decoder ⟨0, U64_MAX, 0⟩ = none
  ∧ devm_cxl_enumerate_decoders [⟨0, U64_MAX, 0⟩] = - ENXIO := by
  refine ⟨C8_enumeration.1 ⟨0, U64_MAX, 0⟩ (Or.inl rfl), ?_⟩
  exact (C8_enumeration.2.1 [⟨0, U64_MAX, 0⟩]).mpr
    (by
      intro s hs
      simp only [List.mem_singleton] at hs
      subst hs
      exact C8_enumeration.1 _ (Or.inl rfl))

/-- C8 counterexample --- an uncommitted slot whose size register reads
the all-ones sentinel initializes successfully (the code zeroes the size
of uncommitted slots before the sentinel check), contradicting the
claim that every slot with an all-ones size fails; enumeration over just
that slot therefore succeeds. -/
theorem C8_size_sentinel_counterexample :
    (init_hdm_decoder ⟨0, 0, U64_MAX⟩).isSome = true
  ∧ devm_cxl_enumerate_decoders [⟨0, 0, U64_MAX⟩] = 0 := by
  refine ⟨by decide, by decide⟩

/-- C9 --- the configuration setters of part_003 enforce, in check
order: a driver-bound region rejects both setters with -EBUSY; an
already-set field rejects with -EEXIST; and writing ways while the
granularity is still unset (field 0) rejects with -EILSEQ (the
granularity-before-ways ordering).  In every error case the returned
region state is unchanged. -/
theorem C9_setter_ordering :
    (∀ (cxlr : CxlRegionS) (rootd : CxlDecoder) (val : Int),
      cxlr.bound = true →
      interleave_ways_store cxlr rootd val = (-EBUSY, cxlr) ∧
      interleave_granularity_store cxlr rootd val = (-EBUSY, cxlr))
  ∧ (∀ (cxlr : CxlRegionS) (rootd : CxlDecoder) (val : Int),
      cxlr.bound = false → cxlr.interleave_ways ≠ 0 →
      interleave_ways_store cxlr rootd val = (-EEXIST, cxlr))
  ∧ (∀ (cxlr : CxlRegionS) (rootd : CxlDecoder) (val : Int),
      cxlr.bound = false → cxlr.interleave_granularity ≠ 0 →
      interleave_granularity_store cxlr rootd val = (-EEXIST, cxlr))
  ∧ (∀ (cxlr : CxlRegionS) (rootd : CxlDecoder) (val : Int),
      cxlr.bound = false → cxlr.interleave_ways = 0 →
      cxlr.interleave_granularity = 0 →
      interleave_ways_store cxlr rootd val = (-EILSEQ, cxlr)) := by
  refine ⟨?_, ?_, ?_, ?_⟩
  · intro cxlr rootd val hb
    exact ⟨by simp [interleave_ways_store, hb],
           by simp [interleave_granularity_store, hb]⟩
  · intro cxlr rootd val hb hw
    simp [interleave_ways_store, hb, hw]
  · intro cxlr rootd val hb hg
    simp [interleave_granularity_store, hb, hg]
  · intro cxlr rootd val hb hw hg
    simp [interleave_ways_store, hb, hw, hg]

/-- Wrapping is the identity on in-range ints. -/
theorem wrap32_small (x : Int) (h1 : -(2 ^ 31) ≤ x) (h2 : x < 2 ^ 31) :
    wrap32 x = x := by
  unfold wrap32
  rw [Int.emod_eq_of_lt (by omega) (by omega)]
  omega

/-- In-range shifts of 1 are exact powers of two. -/
theorem c_shl_one_small (s : Int) (h0 : 0 ≤ s) (h1 : s ≤ 30) :
    c_shl 1 s = (2 : Int) ^ s.toNat := by
  unfold c_shl wrap32
  rw [if_neg (by omega)]
  have hsle : s.toNat ≤ 30 := by omega
  have hlt : (2 : Int) ^ s.toNat ≤ 2 ^ 30 :=
    pow_le_pow_right₀ (by norm_num) hsle
  have hpos : (0 : Int) < 2 ^ s.toNat := by positivity
  rw [one_mul, Int.emod_eq_of_lt (by norm_num; omega) (by norm_num; omega)]
  omega

/-- The interleave-granularity exponent of every valid granularity lies
in [0, 6]. -/
theorem ig_bounds : ∀ g ∈ validGranList, 0 ≤ cxl_to_ig g ∧ cxl_to_ig g ≤ 6 := by
  decide

/-- The encoded ways exponent of every valid ways value lies in [0, 12]
(the buggy encoder maps 12 to exponent 12). -/
theorem eniw_bounds :
    ∀ w ∈ validWaysList, 0 ≤ cxl_to_eniw w ∧ cxl_to_eniw w ≤ 12 := by
  decide

/-- The XHB target-loop test of region.c line 298 fires exactly when the
low bit of the shifted index is set and the mask differs from the port
id (the comparison sits inside the bitwise and). -/
theorem xhb_bit_iff (x : Nat) (c : Prop) [Decidable c] :
    (x &&& (if c then 1 else 0) ≠ 0) ↔ (x % 2 = 1 ∧ c) := by
  by_cases hc : c
  · simp only [hc, if_true, Nat.and_one_is_mod, and_true]
    omega
  · simp [hc]

/-- C5 counterexample --- a region over two host bridges and a root
decoder whose target port ids (5 and 7) both violate the claimed
position formula, yet `region_xhb_config_valid` accepts: the comparison
of line 298 is inside the bitwise and (so for even shifted indexes the
test never fires) and the target loop stops at `nr_targets - 1`. -/
theorem C5_xhb_counterexample :
    region_xhb_config_valid c5_region c5_rootd = true
  ∧ c5_spec_valid c5_region c5_rootd = false := by
  refine ⟨by decide, by decide⟩

/-- C5 (amended) --- for a region spanning at least two host bridges,
with valid granularities and root-decoder ways, `region_xhb_config_valid`
returns true iff: the root granularity exponent is at least the
region's; `2^(root_ig - region_ig) * 2^root_eniw` does not exceed the
region's ways; and for every root-decoder target index `i` except the
last (`i < nr_targets - 1`), it is not the case that bit
`(root_ig - region_ig)` of `i` is set while `2^root_eniw - 1` differs
from that target's port id — the code's misparenthesised form of the
claimed position formula. -/
theorem C5_xhb_amended :
    ∀ (cxlr : CxlRegion) (rootd : CxlDecoder),
      rootd.interleave_ways ∈ validWaysList →
      rootd.interleave_granularity ∈ validGranList →
      cxlr.config.interleave_granularity ∈ validGranList →
      2 ≤ (get_unique_hostbridges cxlr).length →
      (region_xhb_config_valid cxlr rootd = true ↔
        (cxl_to_ig cxlr.config.interleave_granularity ≤
            cxl_to_ig rootd.interleave_granularity
         ∧ ((2 ^ (cxl_to_ig rootd.interleave_granularity -
                  cxl_to_ig cxlr.config.interleave_granularity).toNat *
               2 ^ (cxl_to_eniw rootd.interleave_ways).toNat : Nat) : Int) ≤
             cxlr.config.interleave_ways
         ∧ ∀ i, i < rootd.nr_targets - 1 →
             ¬((i >>> (cxl_to_ig rootd.interleave_granularity -
                   cxl_to_ig cxlr.config.interleave_granularity).toNat) % 2 = 1
               ∧ ((2 ^ (cxl_to_eniw rootd.interleave_ways).toNat - 1 : Nat) :
                    Int) ≠ rootd.target_port_id i))) := by
  intro cxlr rootd hw hg hrg hhb
  obtain ⟨he0, he10⟩ := eniw_bounds _ hw
  obtain ⟨hr0, hr6⟩ := ig_bounds _ hg
  obtain ⟨hc0, hc6⟩ := ig_bounds _ hrg
  set e := cxl_to_eniw rootd.interleave_ways with he_def
  set rI := cxl_to_ig rootd.interleave_granularity with hrI_def
  set cI := cxl_to_ig cxlr.config.interleave_granularity with hcI_def
  have hcast_sub : ((2 ^ e.toNat - 1 : Nat) : Int) = (2 : Int) ^ e.toNat - 1 := by
    have h1 : 1 ≤ 2 ^ e.toNat := Nat.one_le_two_pow
    push_cast [h1]
    ring
  unfold region_xhb_config_valid
  rw [if_neg (by omega), if_neg (by omega)]
  by_cases hlt : rI < cI
  · rw [if_pos hlt]
    simp only [Bool.false_eq_true, false_iff]
    rintro ⟨hle, -, -⟩
    omega
  · rw [if_neg hlt]
    have hd0 : (0 : Int) ≤ rI - cI := by omega
    have hshl_d : c_shl 1 (rI - cI) = (2 : Int) ^ (rI - cI).toNat :=
      c_shl_one_small _ hd0 (by omega)
    have hshl_e : c_shl 1 e = (2 : Int) ^ e.toNat :=
      c_shl_one_small _ he0 (by omega)
    rw [hshl_d]
    simp only [hshl_e]
    have hmul : c_int_mul ((2 : Int) ^ (rI - cI).toNat) ((2 : Int) ^ e.toNat)
        = (2 : Int) ^ (rI - cI).toNat * 2 ^ e.toNat := by
      unfold c_int_mul
      apply wrap32_small
      · have hx : (0 : Int) ≤ (2 : Int) ^ (rI - cI).toNat * 2 ^ e.toNat := by
          positivity
        omega
      · calc (2 : Int) ^ (rI - cI).toNat * 2 ^ e.toNat
            ≤ 2 ^ 6 * 2 ^ 12 := by
              apply mul_le_mul (pow_le_pow_right₀ (by norm_num) (by omega))
                (pow_le_pow_right₀ (by norm_num) (by omega)) (by positivity)
                (by norm_num)
          _ < 2 ^ 31 := by norm_num
    rw [hmul]
    have hprod : ((2 ^ (rI - cI).toNat * 2 ^ e.toNat : Nat) : Int) =
        (2 : Int) ^ (rI - cI).toNat * 2 ^ e.toNat := by
      push_cast
      ring
    by_cases hbig : cxlr.config.interleave_ways <
        (2 : Int) ^ (rI - cI).toNat * 2 ^ e.toNat
    · rw [if_pos hbig]
      simp only [Bool.false_eq_true, false_iff]
      rintro ⟨-, hle2, -⟩
      rw [hprod] at hle2
      omega
    · rw [if_neg hbig]
      by_cases hany : (List.range (rootd.nr_targets - 1)).any (fun i =>
          decide ((i >>> (rI - cI).toNat) &&&
            (if (2 : Int) ^ e.toNat - 1 ≠ rootd.target_port_id i then 1
             else 0) ≠ 0)) = true
      · rw [if_pos hany]
        simp only [Bool.false_eq_true, false_iff]
        rintro ⟨-, -, hall⟩
        obtain ⟨i, hi, hpred⟩ := List.any_eq_true.mp hany
        rw [List.mem_range] at hi
        rw [decide_eq_true_iff] at hpred
        rw [xhb_bit_iff] at hpred
        exact hall i hi ⟨hpred.1, by rw [hcast_sub]; exact hpred.2⟩
      · rw [if_neg hany]
        simp only [true_iff]
        refine ⟨by omega, by rw [hprod]; omega, ?_⟩
        intro i hi hbad
        refine hany ?_
        rw [List.any_eq_true]
        refine ⟨i, List.mem_range.mpr hi, ?_⟩
        rw [decide_eq_true_iff, xhb_bit_iff]
        exact ⟨hbad.1, by rw [hcast_sub] at hbad; exact hbad.2⟩

/-- Witness for the amended C5 at a concrete accepted configuration
(two host bridges, root targets with port ids 0 and 1). -/
theorem C5_xhb_amended_witness :
    region_xhb_config_valid c5_region w5_rootd = true ↔
      (cxl_to_ig c5_region.config.interleave_granularity ≤
          cxl_to_ig w5_rootd.interleave_granularity
       ∧ ((2 ^ (cxl_to_ig w5_rootd.interleave_granularity -
                cxl_to_ig c5_region.config.interleave_granularity).toNat *
             2 ^ (cxl_to_eniw w5_rootd.interleave_ways).toNat : Nat) : Int) ≤
           c5_region.config.interleave_ways
       ∧ ∀ i, i < w5_rootd.nr_targets - 1 →
           ¬((i >>> (cxl_to_ig w5_rootd.interleave_granularity -
                 cxl_to_ig c5_region.config.interleave_granularity).toNat) % 2
               = 1
             ∧ ((2 ^ (cxl_to_eniw w5_rootd.interleave_ways).toNat - 1 : Nat) :
                  Int) ≠ w5_rootd.target_port_id i)) :=
  C5_xhb_amended c5_region w5_rootd (by decide) (by decide) (by decide)
    (by decide)

/-- Folding the distinct-collection step over elements already collected
changes nothing. -/
theorem collect_distinct_aux :
    ∀ (l acc : List Nat), (∀ y ∈ l, y ∈ acc) →
      l.foldl (fun acc x => if x ∈ acc then acc else acc ++ [x]) acc = acc := by
  intro l
  induction l with
  | nil => intro acc _; rfl
  | cons a t ih =>
    intro acc h
    have ha : a ∈ acc := h a (List.mem_cons_self a t)
    simp only [List.foldl_cons, if_pos ha]
    exact ih acc (fun y hy => h y (List.mem_cons_of_mem a hy))

/-- A non-empty list of copies of one value collects to that single
value. -/
theorem collect_distinct_const :
    ∀ (l : List Nat) (k : Nat), (∀ y ∈ l, y = k) → l ≠ [] →
      collect_distinct l = [k] := by
  intro l k hall hne
  cases l with
  | nil => exact absurd rfl hne
  | cons a t =>
    have ha : a = k := hall a (List.mem_cons_self a t)
    unfold collect_distinct
    simp only [List.foldl_cons]
    rw [if_neg (List.not_mem_nil a), List.nil_append, ha]
    exact collect_distinct_aux t [k] (fun y hy => by
      rw [hall y (List.mem_cons_of_mem a hy)]
      exact List.mem_singleton_self k)

/-- Membership in the distinct collection is membership in the input. -/
theorem mem_foldl_distinct :
    ∀ (l acc : List Nat) (x : Nat),
      x ∈ l.foldl (fun acc x => if x ∈ acc then acc else acc ++ [x]) acc ↔
        x ∈ acc ∨ x ∈ l := by
  intro l
  induction l with
  | nil => intro acc x; simp
  | cons a t ih =>
    intro acc x
    simp only [List.foldl_cons, List.mem_cons]
    by_cases ha : a ∈ acc
    · rw [if_pos ha, ih]
      constructor
      · rintro (h | h)
        · exact Or.inl h
        · exact Or.inr (Or.inr h)
      · rintro (h | rfl | h)
        · exact Or.inl h
        · exact Or.inl ha
        · exact Or.inr h
    · rw [if_neg ha, ih]
      simp only [List.mem_append, List.mem_singleton]
      tauto

theorem mem_collect_distinct (l : List Nat) (x : Nat) :
    x ∈ collect_distinct l ↔ x ∈ l := by
  unfold collect_distinct
  rw [mem_foldl_distinct]
  simp

/-- Two endpoints under the same root port with different groupings make
the port-grouping check fail. -/
theorem port_grouping_mismatch (l : List Nat) (m i j : Nat)
    (hi : i ∈ l) (hj : j ∈ l) (hne : i &&& m ≠ j &&& m) :
    port_grouping_ok l m = false := by
  cases l with
  | nil => exact absurd hi (List.not_mem_nil i)
  | cons h t =>
    cases hval : port_grouping_ok (h :: t) m
    · rfl
    · exfalso
      unfold port_grouping_ok at hval
      rw [List.all_eq_true] at hval
      have hmem : ∀ y ∈ h :: t, y &&& m = h &&& m := by
        intro y hy
        rcases List.mem_cons.mp hy with rfl | hyt
        · rfl
        · simpa using hval y hyt
      exact hne ((hmem i hi).trans (hmem j hj).symm)

/-- If some host bridge on the list fails its root-port check, the
host-bridge loop returns false and releases exactly the decoders on the
staged list at the failure point (the list itself is not cleared). -/
theorem hb_loop_fails (topo : CxlTopology) (cxlr : CxlRegion) (mask : Nat)
    (su : Bool) :
    ∀ (hbs : List Nat) (st : List StagedDecoder),
      (∃ hb ∈ hbs, hb_rps_ok topo cxlr mask hb = false) →
      (hb_loop topo cxlr mask su hbs st).valid = false ∧
      (hb_loop topo cxlr mask su hbs st).released =
        (hb_loop topo cxlr mask su hbs st).staged := by
  intro hbs
  induction hbs with
  | nil =>
    rintro st ⟨hb, hmem, -⟩
    exact absurd hmem (List.not_mem_nil hb)
  | cons a t ih =>
    rintro st ⟨hb, hmem, hfail⟩
    cases hok : hb_rps_ok topo cxlr mask a
    · simp only [hb_loop, hok, Bool.false_eq_true, if_false]
      exact ⟨by simp, by simp⟩
    · have hbt : hb ∈ t := by
        rcases List.mem_cons.mp hmem with rfl | h
        · rw [hok] at hfail
          cases hfail
        · exact h
      simp only [hb_loop, hok, if_true]
      exact ih _ ⟨hb, hbt, hfail⟩

/-- C6 counterexample --- the four-endpoint, two-host-bridge region with
mismatched groupings fails validation, but its staged-decoder list is
NOT left empty: the error path puts each staged decoder without
unlinking it, so the (released) decoder staged for host bridge 1 is
still on the list. -/
theorem C6_hb_rp_counterexample :
    (region_hb_rp_config_valid c6_topo c6_region true []).valid = false
  ∧ (region_hb_rp_config_valid c6_topo c6_region true []).staged ≠ []
  ∧ (region_hb_rp_config_valid c6_topo c6_region true []).released =
      (region_hb_rp_config_valid c6_topo c6_region true []).staged := by
  refine ⟨by decide, by decide, by decide⟩

/-- C6 (amended) --- if two region endpoints reachable through the same
root port of some host bridge disagree on `endpoint_index &
position_mask`, host-bridge-root-port validation (with state updates,
starting from an empty staged list) returns false, and every decoder
staged during the attempt is released — but the staged list is not
emptied: the released decoders remain linked on it (`released` equals
the final `staged`). -/
theorem C6_hb_rp_mismatch :
    ∀ (topo : CxlTopology) (cxlr : CxlRegion) (hb rp i j : Nat),
      rp ∈ topo.hbDports hb →
      i ∈ endpoints_on_hb_rp cxlr hb rp →
      j ∈ endpoints_on_hb_rp cxlr hb rp →
      i &&& position_mask cxlr ≠ j &&& position_mask cxlr →
      (region_hb_rp_config_valid topo cxlr true []).valid = false ∧
      (region_hb_rp_config_valid topo cxlr true []).released =
        (region_hb_rp_config_valid topo cxlr true []).staged := by
  intro topo cxlr hb rp i j hrp hi hj hne
  have hgf : port_grouping_ok (endpoints_on_hb_rp cxlr hb rp)
      (position_mask cxlr) = false :=
    port_grouping_mismatch _ _ i j hi hj hne
  have hrps : hb_rps_ok topo cxlr (position_mask cxlr) hb = false := by
    unfold hb_rps_ok
    rw [List.all_eq_false]
    exact ⟨rp, hrp, by simp [hgf]⟩
  have hifilter := List.mem_filter.mp hi
  have hhb_eq : (epAt cxlr i).hb = hb := by
    have := hifilter.2
    simp only [Bool.and_eq_true, beq_iff_eq] at this
    exact this.1
  have hbmem : hb ∈ get_unique_hostbridges cxlr := by
    unfold get_unique_hostbridges
    rw [mem_collect_distinct]
    exact List.mem_map.mpr ⟨i, hifilter.1, hhb_eq⟩
  unfold region_hb_rp_config_valid
  cases hsw : has_switch cxlr
  · simp only [Bool.false_eq_true, if_false]
    by_cases hnrp : (get_num_root_ports cxlr == 1 && true) = true
    · exfalso
      simp only [Bool.and_true, beq_iff_eq] at hnrp
      have hpm : position_mask cxlr = 0 := by
        unfold position_mask
        rw [hnrp]
        decide
      rw [hpm] at hne
      simp [Nat.and_zero] at hne
    · rw [if_neg (by simpa using hnrp)]
      exact hb_loop_fails topo cxlr (position_mask cxlr) true
        (get_unique_hostbridges cxlr) [] ⟨hb, hbmem, hrps⟩
  · simp only [if_true]
    exact ⟨by simp, by simp⟩

/-- Witness for the amended C6 at the concrete mismatched region
(endpoints 0 and 1 share host bridge 1 / root port 10 but group as 0
and 1 under position mask 1). -/
theorem C6_hb_rp_mismatch_witness :
    (region_hb_rp_config_valid c6_topo c6_region true []).valid = false ∧
    (region_hb_rp_config_valid c6_topo c6_region true []).released =
      (region_hb_rp_config_valid c6_topo c6_region true []).staged :=
  C6_hb_rp_mismatch c6_topo c6_region 1 10 0 1 (by decide) (by decide)
    (by decide) (by decide)

/-- C7 --- a region whose endpoints all sit under one host bridge and
one root port, with no intervening switch (all port depths at most 2),
passes host-bridge-root-port validation with state updates by staging
exactly one decoder at that host bridge with ways 1, the region's
granularity, and that root port as target 0. -/
theorem C7_simple_config :
    ∀ (topo : CxlTopology) (cxlr : CxlRegion) (hbid rpid : Nat),
      1 ≤ cxlr.config.interleave_ways →
      (∀ i, i < region_ways_nat cxlr →
        (epAt cxlr i).hb = hbid ∧ (epAt cxlr i).rp = rpid ∧
        (epAt cxlr i).port_depth ≤ 2) →
      region_hb_rp_config_valid topo cxlr true [] =
        ⟨true, [⟨hbid, 1, cxlr.config.interleave_granularity, some rpid⟩],
         []⟩ := by
  intro topo cxlr hbid rpid hiw hall
  have hn1 : 1 ≤ region_ways_nat cxlr := by
    unfold region_ways_nat
    omega
  have hmapne : (List.range (region_ways_nat cxlr)).map
      (fun i => (epAt cxlr i).rp) ≠ [] := by
    apply List.ne_nil_of_length_pos
    simpa using hn1
  have hmapne2 : (List.range (region_ways_nat cxlr)).map
      (fun i => (epAt cxlr i).hb) ≠ [] := by
    apply List.ne_nil_of_length_pos
    simpa using hn1
  have hsw : has_switch cxlr = false := by
    unfold has_switch
    rw [List.any_eq_false]
    intro x hx
    rw [List.mem_range] at hx
    have := (hall x hx).2.2
    simp only [decide_eq_true_eq]
    omega
  have hnrp : get_num_root_ports cxlr = 1 := by
    unfold get_num_root_ports
    rw [collect_distinct_const _ rpid (fun y hy => by
      obtain ⟨x, hx, rfl⟩ := List.mem_map.mp hy
      exact (hall x (List.mem_range.mp hx)).2.1) hmapne]
    rfl
  have hhbs : get_unique_hostbridges cxlr = [hbid] := by
    unfold get_unique_hostbridges
    exact collect_distinct_const _ hbid (fun y hy => by
      obtain ⟨x, hx, rfl⟩ := List.mem_map.mp hy
      exact (hall x (List.mem_range.mp hx)).1) hmapne2
  have hrp0 : (epAt cxlr 0).rp = rpid := (hall 0 hn1).2.1
  unfold region_hb_rp_config_valid
  rw [hsw, hnrp, hhbs, hrp0]
  simp

/-- Witness for C7: one endpoint under host bridge 3, root port 7,
depth 2, ways 1, granularity 256. -/
theorem C7_simple_config_witness :
    region_hb_rp_config_valid c7_topo c7_region true [] =
      ⟨true, [⟨3, 1, 256, some 7⟩], []⟩ :=
  C7_simple_config c7_topo c7_region 3 7 (by decide)
    (fun i hi => by
      have h0 : i = 0 := Nat.lt_one_iff.mp hi
      subst h0
      exact ⟨rfl, rfl, by decide⟩)

/-- Witness for C9 at concrete region states. -/
theorem C9_setter_ordering_witness :
    interleave_ways_store ⟨true, 0, 0⟩ c5_rootd 2 = (-EBUSY, ⟨true, 0, 0⟩)
  ∧ interleave_ways_store ⟨false, 2, 256⟩ c5_rootd 4 = (-EEXIST, ⟨false, 2, 256⟩)
  ∧ interleave_granularity_store ⟨false, 0, 256⟩ c5_rootd 512 =
      (-EEXIST, ⟨false, 0, 256⟩)
  ∧ interleave_ways_store ⟨false, 0, 0⟩ c5_rootd 2 = (-EILSEQ, ⟨false, 0, 0⟩) :=
  ⟨(C9_setter_ordering.1 ⟨true, 0, 0⟩ c5_rootd 2 rfl).1,
   C9_setter_ordering.2.1 ⟨false, 2, 256⟩ c5_rootd 4 rfl (by decide),
   C9_setter_ordering.2.2.1 ⟨false, 0, 256⟩ c5_rootd 512 rfl (by decide),
   C9_setter_ordering.2.2.2 ⟨false, 0, 0⟩ c5_rootd 2 rfl rfl rfl⟩
